import Mathlib

/-!
# SparkFun ATECCX08A driver: protocol constants, checksum, framing, response validation

Shallow embedding of `src/SparkFun_ATECCX08a_Arduino_Library.h`.

* Bytes (`byte`, `uint8_t`) are natural numbers; where a value is stored in a byte the
  reduction `% 256` is written out.
* The `#define` constants are transcribed one for one, with the header's names.
* The object state `ATECCX08A` carries the data members the header declares.
* The header only declares the member functions.  Their bodies live in the library's
  `.cpp` file; the definitions below that stand for such bodies say so in their doc comment.
-/

namespace SparkFun

/-! ## Constants of the header -/

/-- Header line 40: `#define I2C_BUFFER_LENGTH 32`. -/
def I2C_BUFFER_LENGTH : Nat := 32

/-- Header line 44: `#define ATECC508A_ADDRESS_DEFAULT 0x60`. -/
def ATECC508A_ADDRESS_DEFAULT : Nat := 0x60

/-- Header line 50: `#define WORD_ADDRESS_VALUE_COMMAND 0x03`. -/
def WORD_ADDRESS_VALUE_COMMAND : Nat := 0x03

/-- Header line 52: `#define WORD_ADDRESS_VALUE_IDLE 0x02`. -/
def WORD_ADDRESS_VALUE_IDLE : Nat := 0x02

/-- Header line 55: `#define COMMAND_OPCODE_INFO 0x30`. -/
def COMMAND_OPCODE_INFO : Nat := 0x30

/-- Header line 56: `#define COMMAND_OPCODE_LOCK 0x17`. -/
def COMMAND_OPCODE_LOCK : Nat := 0x17

/-- Header line 57: `#define COMMAND_OPCODE_RANDOM 0x1B`. -/
def COMMAND_OPCODE_RANDOM : Nat := 0x1B

/-- Header line 58: `#define COMMAND_OPCODE_READ 0x02`. -/
def COMMAND_OPCODE_READ : Nat := 0x02

/-- Header line 59: `#define COMMAND_OPCODE_WRITE 0x12`. -/
def COMMAND_OPCODE_WRITE : Nat := 0x12

/-- Header line 60: `#define COMMAND_OPCODE_SHA 0x47`. -/
def COMMAND_OPCODE_SHA : Nat := 0x47

/-- Header line 61: `#define COMMAND_OPCODE_GENKEY 0x40`. -/
def COMMAND_OPCODE_GENKEY : Nat := 0x40

/-- Header line 62: `#define COMMAND_OPCODE_NONCE 0x16`. -/
def COMMAND_OPCODE_NONCE : Nat := 0x16

/-- Header line 65: `#define LOCK_ZONE_CONFIG 0b10000000`. -/
def LOCK_ZONE_CONFIG : Nat := 0b10000000

/-- Header line 66: `#define LOCK_ZONE_DATA_AND_OTP 0b10000001`. -/
def LOCK_ZONE_DATA_AND_OTP : Nat := 0b10000001

/-- Header line 69: `#define GENKEY_MODE_PUBLIC 0b00000000`. -/
def GENKEY_MODE_PUBLIC : Nat := 0b00000000

/-- Header line 70: `#define GENKEY_MODE_PRIVATE 0b00001000`. -/
def GENKEY_MODE_PRIVATE : Nat := 0b00001000

/-- Header line 72: `#define ZONE_CONFIG 0x00`. -/
def ZONE_CONFIG : Nat := 0x00

/-- Header line 73: `#define ZONE_OTP 0x01`. -/
def ZONE_OTP : Nat := 0x01

/-- Header line 74: `#define ZONE_DATA 0x02`. -/
def ZONE_DATA : Nat := 0x02

/-- Header line 76: `#define ADDRESS_CONFIG_BLOCK_0 0b00000000`. -/
def ADDRESS_CONFIG_BLOCK_0 : Nat := 0b00000000

/-- Header line 77: `#define ADDRESS_CONFIG_BLOCK_1 0b00001000`. -/
def ADDRESS_CONFIG_BLOCK_1 : Nat := 0b00001000

/-- Header line 78: `#define ADDRESS_CONFIG_BLOCK_2 0b00010000`. -/
def ADDRESS_CONFIG_BLOCK_2 : Nat := 0b00010000

/-- Header line 79: `#define ADDRESS_CONFIG_BLOCK_3 0b00011000`. -/
def ADDRESS_CONFIG_BLOCK_3 : Nat := 0b00011000

/-- Header line 91: the declared size of `byte inputBuffer[128]`. -/
def INPUT_BUFFER_SIZE : Nat := 128

/-- Header line 92: the declared size of `byte configZone[128]`. -/
def CONFIG_ZONE_SIZE : Nat := 128

/-- Header line 107: the declared size of `byte random32Bytes[32]`. -/
def RANDOM_BUFFER_SIZE : Nat := 32

/-! ## Tables over the constants -/

/-- The eight commands the header's opcode section (lines 54 to 62) names. -/
inductive Command where
  | info | lock | random | read | write | sha | genKey | nonce
  deriving DecidableEq, Repr

/-- The opcode constant the header gives each command. -/
def Command.opcode : Command → Nat
  | .info => COMMAND_OPCODE_INFO
  | .lock => COMMAND_OPCODE_LOCK
  | .random => COMMAND_OPCODE_RANDOM
  | .read => COMMAND_OPCODE_READ
  | .write => COMMAND_OPCODE_WRITE
  | .sha => COMMAND_OPCODE_SHA
  | .genKey => COMMAND_OPCODE_GENKEY
  | .nonce => COMMAND_OPCODE_NONCE

/-- The eight opcode constants in header order. -/
def opcodeTable : List Nat :=
  [COMMAND_OPCODE_INFO, COMMAND_OPCODE_LOCK, COMMAND_OPCODE_RANDOM, COMMAND_OPCODE_READ,
   COMMAND_OPCODE_WRITE, COMMAND_OPCODE_SHA, COMMAND_OPCODE_GENKEY, COMMAND_OPCODE_NONCE]

/-- The three zone identifiers in header order. -/
def zoneTable : List Nat := [ZONE_CONFIG, ZONE_OTP, ZONE_DATA]

/-- The constant `ADDRESS_CONFIG_BLOCK_k` (header lines 76 to 79); 0 for any other `k`. -/
def addressConfigBlock : Nat → Nat
  | 0 => ADDRESS_CONFIG_BLOCK_0
  | 1 => ADDRESS_CONFIG_BLOCK_1
  | 2 => ADDRESS_CONFIG_BLOCK_2
  | 3 => ADDRESS_CONFIG_BLOCK_3
  | _ => 0

/-- Modelled from the spec: the chip's word size, which the header does not define.  Zones
are accessed in 4-byte words (spec section 3, "4-byte-aligned access"; section 4.4, "4-byte
or 32-byte blocks"), so a word address is a byte offset divided by 4. -/
def WORD_SIZE : Nat := 4

/-- Byte offset, inside its zone, of the word a `param2` address byte points at. -/
def byteOffsetOfAddress (address : Nat) : Nat := WORD_SIZE * address

/-- Bit `i` of a byte, as a boolean. -/
def bitOf (b i : Nat) : Bool := b / 2 ^ i % 2 == 1

/-- The first byte of a transport write is `marker`. -/
def startsWithMarker (marker : Nat) (transportWrite : List Nat) : Bool :=
  transportWrite.head? == some marker

/-! ## Object state -/

/-- The data members `class ATECCX08A` declares (header lines 91, 92, 96, 107, 113):
`byte inputBuffer[128]`, `byte configZone[128]`, `uint8_t countGlobal`,
`byte random32Bytes[32]` and `uint8_t crc[2]`. -/
structure ATECCX08A where
  inputBuffer : List Nat
  configZone : List Nat
  countGlobal : Nat
  random32Bytes : List Nat
  crc : List Nat
  deriving DecidableEq, Repr

/-- A freshly constructed object: the header's initialisers `countGlobal = 0` and
`crc[2] = {0, 0}`, with the arrays at their declared sizes (contents taken as zero). -/
def ATECCX08A.fresh : ATECCX08A where
  inputBuffer := List.replicate INPUT_BUFFER_SIZE 0
  configZone := List.replicate CONFIG_ZONE_SIZE 0
  countGlobal := 0
  random32Bytes := List.replicate RANDOM_BUFFER_SIZE 0
  crc := [0, 0]

/-! ## Checksum module -/

/-- Modelled from the spec: the CRC polynomial, which the header does not define.  Spec
sections 4.1 and 6 give it as 0x8005 (x^16 + x^15 + x^2 + 1 without its leading term). -/
def POLYNOM : Nat := 0x8005

/-- Modelled from the spec: one bit step of the checksum, part of the body of
`atca_calculate_crc`, which the header only declares.  The 16-bit register is shifted left
by one (its top bit leaves first), and the polynomial is folded in when the incoming data
bit differs from the bit shifted out. -/
def crcShiftBit (crc_register : Nat) (data_bit : Bool) : Nat :=
  let crc_bit : Bool := crc_register / 2 ^ 15 % 2 == 1
  let shifted : Nat := crc_register * 2 % 2 ^ 16
  if data_bit != crc_bit then shifted ^^^ POLYNOM else shifted

/-- Modelled from the spec: the bit loop of `atca_calculate_crc` over one data byte,
"MSB-first bit processing" (spec 4.1): bit 7 enters first, bit 0 last. -/
def crcShiftByte (crc_register byte : Nat) : Nat :=
  [7, 6, 5, 4, 3, 2, 1, 0].foldl (fun reg i => crcShiftBit reg (bitOf byte i)) crc_register

/-- Modelled from the spec: the byte loop of `atca_calculate_crc`, for `counter` from 0 to
`length - 1` reading `data[counter]`, started from "initial register value 0" (spec 4.1).
A read past the end of `data` is given the value 0. -/
def crcRegister (length : Nat) (data : List Nat) : Nat :=
  (List.range length).foldl (fun reg counter => crcShiftByte reg (data.getD counter 0)) 0

/-- Modelled from the spec: `void atca_calculate_crc(uint8_t length, uint8_t *data)`, whose
body is in the library's `.cpp` file and not in the header.  It runs the register over the
first `length` bytes and stores it, with "no final XOR", in the member `crc`.  The spec
does not fix the byte order inside `crc`; the low byte is put in `crc[0]`. -/
def ATECCX08A.atca_calculate_crc (self : ATECCX08A) (length : Nat) (data : List Nat) :
    ATECCX08A :=
  let crc_register := crcRegister length data
  { self with crc := [crc_register % 256, crc_register / 256 % 256] }

/-! ### Reference: the CRC as a remainder in GF(2)[x]

Polynomials over GF(2) are written as natural numbers, bit `i` being the coefficient of
`x^i`; their sum is `^^^`, and multiplying by `x` is doubling. -/

/-- The generator x^16 + x^15 + x^2 + 1: polynomial 0x8005 with its leading term. -/
def GENERATOR : Nat := 2 ^ 16 + POLYNOM

/-- Product in GF(2)[x] of the polynomial with coefficients `q` (highest degree first) and
the polynomial `g`, by Horner's rule. -/
def gf2Mul (q : List Bool) (g : Nat) : Nat :=
  q.foldl (fun acc c => 2 * acc ^^^ (if c then g else 0)) 0

/-- The message polynomial of a byte sequence: the bytes in order, each with its most
significant bit first, so the first byte's bit 7 is the leading coefficient. -/
def messageValue (bytes : List Nat) : Nat :=
  bytes.foldl (fun acc b => 256 * acc + b % 256) 0

/-- The polynomial `r` is the remainder of `m(x) * x^16` divided by the generator: `r` has
degree below 16 and `m(x) * x^16 = Q(x) * G(x) + r(x)` for some quotient `Q`. -/
def IsGf2Remainder (m r : Nat) : Prop :=
  r < 2 ^ 16 ∧ ∃ q : List Bool, gf2Mul q GENERATOR ^^^ r = m * 2 ^ 16

/-- The value `r` is the CRC-16 of `bytes` for polynomial 0x8005, MSB first, initial value 0,
no final XOR: the remainder of `M(x) * x^16` divided by the generator, where `M` is the
message polynomial of `bytes`. -/
def IsCrc16 (bytes : List Nat) (r : Nat) : Prop :=
  IsGf2Remainder (messageValue bytes) r

/-- The two bytes that hold a 16-bit value in the member `crc`: low byte, then high byte. -/
def crcBytes (r : Nat) : List Nat := [r % 256, r / 256 % 256]

/-! ## Response validation -/

/-- Modelled from the spec: `boolean checkCount(boolean debug)`, declared in the header with
its body in the `.cpp` file.  Spec 4.3: "validate the response's declared count equals the
number of bytes actually received". -/
def ATECCX08A.checkCount (self : ATECCX08A) : Bool :=
  if self.inputBuffer.getD 0 0 != self.countGlobal then false else true

/-- Modelled from the spec: `boolean checkCrc(boolean debug)`, declared in the header with
its body in the `.cpp` file.  Spec 4.1: the checksum module is used "to validate an incoming
response's trailing two bytes against the bytes that precede them".  The checksum is left
in the member `crc`, so the updated object is returned with the verdict. -/
def ATECCX08A.checkCrc (self : ATECCX08A) : ATECCX08A × Bool :=
  let self1 := self.atca_calculate_crc (self.countGlobal - 2) self.inputBuffer
  if self.inputBuffer.getD (self.countGlobal - 2) 0 != self1.crc.getD 0 0
      || self.inputBuffer.getD (self.countGlobal - 1) 0 != self1.crc.getD 1 0 then
    (self1, false)
  else
    (self1, true)

/-- A four-byte response held in the input buffer: count byte 4, one payload byte 0x11, and
the two checksum bytes 0x65, 0x98 of the bytes 4, 0x11. -/
def ATECCX08A.sampleResponse : ATECCX08A :=
  { ATECCX08A.fresh with
    inputBuffer := [4, 0x11, 0x65, 0x98] ++ List.replicate 124 0
    countGlobal := 4 }

/-- The same response cut short by the transport: only its first byte was received, so
the count byte still declares 4 while `countGlobal` is 1. -/
def ATECCX08A.truncatedResponse : ATECCX08A :=
  { ATECCX08A.fresh with
    inputBuffer := [4] ++ List.replicate 127 0
    countGlobal := 1 }

/-- The two validation failures of spec section 7. -/
inductive ResponseError where
  | CountMismatchError
  | ChecksumError
  deriving DecidableEq, Repr

/-- Modelled from the spec: the validation step of spec 4.3, which the command bodies in the
`.cpp` file perform: the count check first (`CountMismatchError`), then the checksum check
(`ChecksumError`); the response is accepted when neither fails. -/
def ATECCX08A.validateResponse (self : ATECCX08A) : Except ResponseError ATECCX08A :=
  if self.checkCount = false then .error .CountMismatchError
  else
    let checked := self.checkCrc
    if checked.2 = false then .error .ChecksumError else .ok checked.1

/-! ## Command framing -/

/-- Modelled from the spec: the packet a command-issuing method assembles (bodies in the
`.cpp` file).  Spec 6: `count | opcode | param1 | param2(2B) | data | crc(2B)`, `count`
being "total bytes from count through crc inclusive" and stored in one byte, the checksum
"computed over all preceding bytes of the same packet".  Returns the object (its member
`crc` updated) and the packet bytes. -/
def ATECCX08A.assembleCommand (self : ATECCX08A) (opcode param1 param2a param2b : Nat)
    (data : List Nat) : ATECCX08A × List Nat :=
  let count : Nat := (1 + 1 + 1 + 2 + data.length + 2) % 256
  let packet_to_CRC : List Nat := [count, opcode, param1, param2a, param2b] ++ data
  let self1 := self.atca_calculate_crc packet_to_CRC.length packet_to_CRC
  (self1, packet_to_CRC ++ self1.crc)

/-! ## Receiving a response -/

/-- Modelled from the spec: the store of one received byte inside `receiveResponseData`
(body in the `.cpp` file): the byte goes to `inputBuffer[countGlobal]` and the `uint8_t`
counter advances.  A store outside the array has no defined result: `none`. -/
def ATECCX08A.storeReceivedByte (self : ATECCX08A) (b : Nat) : Option ATECCX08A :=
  if self.countGlobal < self.inputBuffer.length then
    some { self with
      inputBuffer := self.inputBuffer.set self.countGlobal b
      countGlobal := (self.countGlobal + 1) % 256 }
  else
    none

/-- Modelled from the spec: the inner loop of `receiveResponseData` (body in the `.cpp`
file), which stores the bytes of one transport read in order. -/
def ATECCX08A.storeReceivedBytes (self : ATECCX08A) : List Nat → Option ATECCX08A
  | [] => some self
  | b :: rest =>
    match self.storeReceivedByte b with
    | none => none
    | some next => next.storeReceivedBytes rest

/-- Modelled from the spec: the receive loop of `receiveResponseData`.  Spec 6: a transport
read is "bounded by a single-transfer size limit" (`I2C_BUFFER_LENGTH`) and "callers chunk
larger transfers themselves".  `bus` lists what the transport delivers to each successive
read (it may deliver less than requested); `length` is the number of bytes still wanted. -/
def ATECCX08A.receiveLoop (self : ATECCX08A) (length : Nat) :
    List (List Nat) → Option ATECCX08A
  | [] => some self
  | transfer :: rest =>
    if length = 0 then some self
    else
      let requestAmount := min length I2C_BUFFER_LENGTH
      let received := transfer.take requestAmount
      match self.storeReceivedBytes received with
      | none => none
      | some next => next.receiveLoop (length - received.length) rest

/-- Modelled from the spec: `boolean receiveResponseData(uint8_t length, boolean debug)`,
declared in the header with its body in the `.cpp` file.  The counter is reset first (header
line 96: "Important to reset before each new receiveMessageData()"), then up to `length`
bytes are read into `inputBuffer`. -/
def ATECCX08A.receiveResponseData (self : ATECCX08A) (length : Nat) (bus : List (List Nat)) :
    Option ATECCX08A :=
  ATECCX08A.receiveLoop { self with countGlobal := 0 } length bus

/-- The bytes `receiveLoop` takes from the transport: of each successive read, at most the
requested amount, until `length` bytes have arrived or the transport has nothing more. -/
def deliveredBytes (length : Nat) : List (List Nat) → List Nat
  | [] => []
  | transfer :: rest =>
    if length = 0 then []
    else
      let received := transfer.take (min length I2C_BUFFER_LENGTH)
      received ++ deliveredBytes (length - received.length) rest

/-- The length of a complete response with `payload` payload bytes: count byte, payload,
two checksum bytes (spec 3, Response Packet). -/
def responseLength (payload : Nat) : Nat := 1 + payload + 2

/-! ## Theorems about the constants -/

/-- C4: the eight opcode constants have the datasheet values Info=0x30, Lock=0x17,
Random=0x1B, Read=0x02, Write=0x12, SHA=0x47, GenKey=0x40, Nonce=0x16; they are pairwise
distinct, and so the map from commands to opcode bytes is one-to-one. -/
theorem opcode_table_fixed_and_injective :
    Command.opcode .info = 0x30 ∧ Command.opcode .lock = 0x17 ∧
    Command.opcode .random = 0x1B ∧ Command.opcode .read = 0x02 ∧
    Command.opcode .write = 0x12 ∧ Command.opcode .sha = 0x47 ∧
    Command.opcode .genKey = 0x40 ∧ Command.opcode .nonce = 0x16 ∧
    opcodeTable = [0x30, 0x17, 0x1B, 0x02, 0x12, 0x47, 0x40, 0x16] ∧
    opcodeTable.Nodup ∧
    (∀ c d : Command, c.opcode = d.opcode → c = d) := by
  refine ⟨rfl, rfl, rfl, rfl, rfl, rfl, rfl, rfl, rfl, by decide, ?_⟩
  intro c d
  cases c <;> cases d <;> decide

/-- C5: the zone identifiers are Config = 0, OTP = 1, Data = 2, pairwise distinct, and each
fits the low two bits of a byte (it is below 4, so masking with 3 leaves it unchanged). -/
theorem zone_identifiers_fixed :
    ZONE_CONFIG = 0 ∧ ZONE_OTP = 1 ∧ ZONE_DATA = 2 ∧
    zoneTable.Nodup ∧
    (∀ z ∈ zoneTable, z < 4 ∧ z &&& 3 = z) := by
  refine ⟨rfl, rfl, rfl, by decide, by decide⟩

/-- C6: `LOCK_ZONE_CONFIG = 0x80` and `LOCK_ZONE_DATA_AND_OTP = 0x81`; both have bit 7 set
and bits 2..6 clear, their low two bits are 0 and 1, and they differ in bit 0 only. -/
theorem lock_modes_bit_layout :
    LOCK_ZONE_CONFIG = 0x80 ∧ LOCK_ZONE_DATA_AND_OTP = 0x81 ∧
    bitOf LOCK_ZONE_CONFIG 7 = true ∧ bitOf LOCK_ZONE_DATA_AND_OTP 7 = true ∧
    (∀ i, 2 ≤ i → i ≤ 6 →
      bitOf LOCK_ZONE_CONFIG i = false ∧ bitOf LOCK_ZONE_DATA_AND_OTP i = false) ∧
    LOCK_ZONE_CONFIG % 4 = 0 ∧ LOCK_ZONE_DATA_AND_OTP % 4 = 1 ∧
    LOCK_ZONE_CONFIG ≠ LOCK_ZONE_DATA_AND_OTP ∧
    LOCK_ZONE_CONFIG ^^^ LOCK_ZONE_DATA_AND_OTP = 1 ∧
    (∀ i, i < 8 →
      (bitOf LOCK_ZONE_CONFIG i ≠ bitOf LOCK_ZONE_DATA_AND_OTP i ↔ i = 0)) := by
  refine ⟨rfl, rfl, by decide, by decide, ?_, by decide, by decide, by decide, by decide, ?_⟩
  · intro i h2 h6
    interval_cases i <;> decide
  · intro i hi
    interval_cases i <;> decide

/-- C7 (evaluation of the code): `GENKEY_MODE_PUBLIC` is 0, while `GENKEY_MODE_PRIVATE` as
defined in the header is 0x08: its only set bit is bit 3, and bit 2 (value 0x04) is clear. -/
theorem genkey_mode_private_is_bit3 :
    GENKEY_MODE_PUBLIC = 0 ∧
    GENKEY_MODE_PRIVATE = 0x08 ∧ GENKEY_MODE_PRIVATE ≠ 0x04 ∧
    bitOf GENKEY_MODE_PRIVATE 2 = false ∧ bitOf GENKEY_MODE_PRIVATE 3 = true ∧
    (∀ i, i < 8 → (bitOf GENKEY_MODE_PRIVATE i = true ↔ i = 3)) := by
  refine ⟨rfl, rfl, by decide, by decide, by decide, ?_⟩
  intro i hi
  interval_cases i <;> decide

/-- C8: the command word-address marker is 0x03 and the idle marker is 0x02; they are
distinct, so no transport write starts with both: one that starts with the idle marker does
not start with the command marker, and one that starts with the command marker does not
start with the idle marker. -/
theorem word_address_markers_distinct :
    WORD_ADDRESS_VALUE_COMMAND = 0x03 ∧ WORD_ADDRESS_VALUE_IDLE = 0x02 ∧
    WORD_ADDRESS_VALUE_COMMAND ≠ WORD_ADDRESS_VALUE_IDLE ∧
    (∀ w : List Nat, startsWithMarker WORD_ADDRESS_VALUE_IDLE w = true →
      startsWithMarker WORD_ADDRESS_VALUE_COMMAND w = false) ∧
    (∀ w : List Nat, startsWithMarker WORD_ADDRESS_VALUE_COMMAND w = true →
      startsWithMarker WORD_ADDRESS_VALUE_IDLE w = false) ∧
    (∀ packet : List Nat,
      startsWithMarker WORD_ADDRESS_VALUE_COMMAND (WORD_ADDRESS_VALUE_COMMAND :: packet) = true ∧
      startsWithMarker WORD_ADDRESS_VALUE_IDLE (WORD_ADDRESS_VALUE_COMMAND :: packet) = false) := by
  refine ⟨rfl, rfl, by decide, ?_, ?_, ?_⟩
  · intro w h
    cases w with
    | nil => rfl
    | cons a t =>
      simp [startsWithMarker, WORD_ADDRESS_VALUE_IDLE, WORD_ADDRESS_VALUE_COMMAND] at h ⊢
      omega
  · intro w h
    cases w with
    | nil => rfl
    | cons a t =>
      simp [startsWithMarker, WORD_ADDRESS_VALUE_IDLE, WORD_ADDRESS_VALUE_COMMAND] at h ⊢
      omega
  · intro packet
    simp [startsWithMarker, WORD_ADDRESS_VALUE_IDLE, WORD_ADDRESS_VALUE_COMMAND]

/-- C9: for k in 0..3, `ADDRESS_CONFIG_BLOCK_k = 8 * k` (block index in bits 3..4, nothing
else set), the constants increase strictly, block k starts at byte offset `32 * k`, and the
four `I2C_BUFFER_LENGTH`-byte blocks tile the 128-byte `configZone` buffer: every byte index
below 128 lies in exactly one block, the last block ends at 128, and
`4 * I2C_BUFFER_LENGTH = 128 > 32`. -/
theorem config_blocks_tile_config_zone :
    (∀ k, k < 4 → addressConfigBlock k = 8 * k ∧
      addressConfigBlock k / 8 % 4 = k ∧ addressConfigBlock k % 8 = 0 ∧
      addressConfigBlock k / 32 = 0 ∧
      byteOffsetOfAddress (addressConfigBlock k) = I2C_BUFFER_LENGTH * k) ∧
    (∀ j k, j < k → k < 4 → addressConfigBlock j < addressConfigBlock k) ∧
    (∀ k, k < 3 → byteOffsetOfAddress (addressConfigBlock k) + I2C_BUFFER_LENGTH
      = byteOffsetOfAddress (addressConfigBlock (k + 1))) ∧
    byteOffsetOfAddress (addressConfigBlock 0) = 0 ∧
    byteOffsetOfAddress (addressConfigBlock 3) + I2C_BUFFER_LENGTH = CONFIG_ZONE_SIZE ∧
    (∀ i, i < CONFIG_ZONE_SIZE → ∃ k, k < 4 ∧
      (byteOffsetOfAddress (addressConfigBlock k) ≤ i ∧
        i < byteOffsetOfAddress (addressConfigBlock k) + I2C_BUFFER_LENGTH) ∧
      ∀ j, j < 4 → byteOffsetOfAddress (addressConfigBlock j) ≤ i →
        i < byteOffsetOfAddress (addressConfigBlock j) + I2C_BUFFER_LENGTH → j = k) ∧
    4 * I2C_BUFFER_LENGTH = CONFIG_ZONE_SIZE ∧ CONFIG_ZONE_SIZE = 128 ∧
    I2C_BUFFER_LENGTH < CONFIG_ZONE_SIZE := by
  refine ⟨?_, ?_, ?_, rfl, rfl, ?_, rfl, rfl, by decide⟩
  · intro k hk
    interval_cases k <;> decide
  · intro j k hjk hk
    interval_cases k <;> interval_cases j <;> decide
  · intro k hk
    interval_cases k <;> decide
  · intro i hi
    refine ⟨i / 32, ?_, ?_, ?_⟩
    · simp only [CONFIG_ZONE_SIZE] at hi
      omega
    · simp only [CONFIG_ZONE_SIZE] at hi
      have h4 : i / 32 < 4 := by omega
      generalize hq : i / 32 = q at h4 ⊢
      interval_cases q <;>
        simp only [addressConfigBlock, ADDRESS_CONFIG_BLOCK_0, ADDRESS_CONFIG_BLOCK_1,
          ADDRESS_CONFIG_BLOCK_2, ADDRESS_CONFIG_BLOCK_3, byteOffsetOfAddress, WORD_SIZE,
          I2C_BUFFER_LENGTH] <;> omega
    · intro j hj hlo hhi
      interval_cases j <;>
        simp only [addressConfigBlock, ADDRESS_CONFIG_BLOCK_0, ADDRESS_CONFIG_BLOCK_1,
          ADDRESS_CONFIG_BLOCK_2, ADDRESS_CONFIG_BLOCK_3, byteOffsetOfAddress, WORD_SIZE,
          I2C_BUFFER_LENGTH] at hlo hhi <;> omega

/-! ## The checksum is the remainder of polynomial division -/

theorem xor_left_comm3 (a b c : Nat) : a ^^^ (b ^^^ c) = b ^^^ (a ^^^ c) := by
  rw [← Nat.xor_assoc, ← Nat.xor_assoc, Nat.xor_comm a b]

theorem two_mul_xor (a b : Nat) : 2 * (a ^^^ b) = 2 * a ^^^ 2 * b := by
  have h1 : (2 * a ^^^ 2 * b) / 2 = a ^^^ b := by
    rw [Nat.xor_div_two]; simp
  have h2 : (2 * a ^^^ 2 * b) % 2 = 0 := by
    rw [Nat.xor_mod_two_eq]; omega
  omega

theorem pow_mul_add_eq_xor {b i : Nat} (hb : b < 2 ^ i) (a : Nat) :
    2 ^ i * a + b = 2 ^ i * a ^^^ b := by
  apply Nat.eq_of_testBit_eq
  intro j
  simp only [Nat.testBit_mul_pow_two_add _ hb, Nat.testBit_xor, Nat.testBit_mul_pow_two]
  by_cases hj : j < i
  · simp [hj, Nat.not_le_of_lt hj]
  · have hij : i ≤ j := Nat.le_of_not_lt hj
    have hbj : b < 2 ^ j := Nat.lt_of_lt_of_le hb (Nat.pow_le_pow_right (by decide) hij)
    simp [hj, hij, Nat.testBit_lt_two_pow hbj]

theorem generator_eq_xor : GENERATOR = 2 ^ 16 ^^^ POLYNOM := by decide

theorem crcShiftBit_lt (reg : Nat) (b : Bool) : crcShiftBit reg b < 2 ^ 16 := by
  unfold crcShiftBit
  have hs : reg * 2 % 2 ^ 16 < 2 ^ 16 := Nat.mod_lt _ (by decide)
  have hp : POLYNOM < 2 ^ 16 := by decide
  simp only
  split
  · exact Nat.xor_lt_two_pow hs hp
  · exact hs

theorem gf2Mul_append_singleton (q : List Bool) (c : Bool) (g : Nat) :
    gf2Mul (q ++ [c]) g = 2 * gf2Mul q g ^^^ (if c then g else 0) := by
  simp [gf2Mul, List.foldl_append]
theorem double_reg_split (reg : Nat) (h : reg < 2 ^ 16) :
    2 * reg = reg * 2 % 2 ^ 16 ^^^ (if reg / 2 ^ 15 % 2 == 1 then 2 ^ 16 else 0) := by
  by_cases ht : reg / 2 ^ 15 % 2 = 1
  · have hb : (reg / 2 ^ 15 % 2 == 1) = true := by rw [ht]; rfl
    have h1 : 2 * reg = 2 ^ 16 * 1 + reg * 2 % 2 ^ 16 := by omega
    have h2 := pow_mul_add_eq_xor (Nat.mod_lt (reg * 2) (by decide : 0 < 2 ^ 16)) 1
    rw [hb, if_pos rfl, h1, h2, Nat.mul_one, Nat.xor_comm]
  · have hb : (reg / 2 ^ 15 % 2 == 1) = false := by
      rw [beq_eq_false_iff_ne]; exact ht
    have h1 : reg * 2 % 2 ^ 16 = 2 * reg := by omega
    rw [hb, h1]
    simp

theorem shift_in_bit (v : Nat) (b : Bool) :
    (2 * v + (if b then 1 else 0)) * 2 ^ 16
      = 2 * (v * 2 ^ 16) ^^^ (if b then 2 ^ 16 else 0) := by
  cases b with
  | false => simp; ring
  | true =>
    have h := pow_mul_add_eq_xor (by decide : 2 ^ 16 < 2 ^ 17) v
    have e1 : (2 * v + 1) * 2 ^ 16 = 2 ^ 17 * v + 2 ^ 16 := by ring
    have e2 : 2 * (v * 2 ^ 16) = 2 ^ 17 * v := by ring
    simp only [if_true]
    rw [e1, e2, h]

theorem crcShiftBit_remainder (v reg : Nat) (b : Bool) (h : IsGf2Remainder v reg) :
    IsGf2Remainder (2 * v + (if b then 1 else 0)) (crcShiftBit reg b) := by
  obtain ⟨hlt, q, hq⟩ := h
  refine ⟨crcShiftBit_lt reg b, q ++ [b != (reg / 2 ^ 15 % 2 == 1)], ?_⟩
  rw [gf2Mul_append_singleton, shift_in_bit, ← hq, two_mul_xor, double_reg_split reg hlt,
    generator_eq_xor]
  unfold crcShiftBit
  cases b <;> cases (reg / 2 ^ 15 % 2 == 1) <;>
    simp [Nat.xor_assoc, Nat.xor_comm, xor_left_comm3, Nat.xor_cancel_left]
theorem bitOf_ite (b i : Nat) : (if bitOf b i then 1 else 0) = b / 2 ^ i % 2 := by
  unfold bitOf
  by_cases h : b / 2 ^ i % 2 = 1
  · simp [h]
  · have h0 : b / 2 ^ i % 2 = 0 := by omega
    simp [h0]

theorem crcShiftByte_remainder (v reg byte : Nat) (h : IsGf2Remainder v reg) :
    IsGf2Remainder (256 * v + byte % 256) (crcShiftByte reg byte) := by
  have h7 := crcShiftBit_remainder _ _ (bitOf byte 7) h
  have h6 := crcShiftBit_remainder _ _ (bitOf byte 6) h7
  have h5 := crcShiftBit_remainder _ _ (bitOf byte 5) h6
  have h4 := crcShiftBit_remainder _ _ (bitOf byte 4) h5
  have h3 := crcShiftBit_remainder _ _ (bitOf byte 3) h4
  have h2 := crcShiftBit_remainder _ _ (bitOf byte 2) h3
  have h1 := crcShiftBit_remainder _ _ (bitOf byte 1) h2
  have h0 := crcShiftBit_remainder _ _ (bitOf byte 0) h1
  simp only [bitOf_ite] at h0
  have hv : 2 * (2 * (2 * (2 * (2 * (2 * (2 * (2 * v + byte / 2 ^ 7 % 2) + byte / 2 ^ 6 % 2)
      + byte / 2 ^ 5 % 2) + byte / 2 ^ 4 % 2) + byte / 2 ^ 3 % 2) + byte / 2 ^ 2 % 2)
      + byte / 2 ^ 1 % 2) + byte / 2 ^ 0 % 2 = 256 * v + byte % 256 := by
    norm_num
    omega
  rw [hv] at h0
  exact h0

theorem crc_fold_remainder (bytes : List Nat) (v reg : Nat) (h : IsGf2Remainder v reg) :
    IsGf2Remainder (bytes.foldl (fun acc b => 256 * acc + b % 256) v)
      (bytes.foldl crcShiftByte reg) := by
  induction bytes generalizing v reg with
  | nil => exact h
  | cons b rest ih => exact ih _ _ (crcShiftByte_remainder v reg b h)

theorem isGf2Remainder_zero : IsGf2Remainder 0 0 :=
  ⟨by decide, [], by simp [gf2Mul]⟩

theorem range_fold_eq_take_fold (f : Nat → Nat → Nat) (data : List Nat) (init : Nat)
    (length : Nat) (h : length ≤ data.length) :
    (List.range length).foldl (fun reg counter => f reg (data.getD counter 0)) init
      = (data.take length).foldl f init := by
  induction length with
  | zero => simp
  | succ n ih =>
    have hn : n < data.length := h
    rw [List.range_succ, List.foldl_append, ih (Nat.le_of_lt hn), List.take_succ,
      List.foldl_append]
    simp [List.getD, List.getElem?_eq_getElem hn]

theorem crcRegister_eq_fold (length : Nat) (data : List Nat) (h : length ≤ data.length) :
    crcRegister length data = (data.take length).foldl crcShiftByte 0 :=
  range_fold_eq_take_fold crcShiftByte data 0 length h

theorem crcRegister_isCrc16 (length : Nat) (data : List Nat) (h : length ≤ data.length) :
    IsCrc16 (data.take length) (crcRegister length data) := by
  rw [crcRegister_eq_fold length data h]
  exact crc_fold_remainder (data.take length) 0 0 isGf2Remainder_zero
theorem horner_xor (g : Nat) (q q2 : List Bool) (hlen : q.length = q2.length) (a a2 : Nat) :
    (List.zipWith xor q q2).foldl (fun acc c => 2 * acc ^^^ (if c then g else 0)) (a ^^^ a2)
      = q.foldl (fun acc c => 2 * acc ^^^ (if c then g else 0)) a
        ^^^ q2.foldl (fun acc c => 2 * acc ^^^ (if c then g else 0)) a2 := by
  induction q generalizing q2 a a2 with
  | nil =>
    cases q2 with
    | nil => simp
    | cons c t => simp at hlen
  | cons c t ih =>
    cases q2 with
    | nil => simp at hlen
    | cons c2 t2 =>
      simp only [List.length_cons, Nat.add_right_cancel_iff] at hlen
      simp only [List.zipWith_cons_cons, List.foldl_cons]
      rw [← ih t2 hlen]
      congr 1
      rw [two_mul_xor]
      cases c <;> cases c2 <;>
        simp [Nat.xor_assoc, Nat.xor_comm, xor_left_comm3, Nat.xor_cancel_left]

theorem gf2Mul_pad (k : Nat) (q : List Bool) (g : Nat) :
    gf2Mul (List.replicate k false ++ q) g = gf2Mul q g := by
  induction k with
  | zero => simp
  | succ n ih =>
    rw [List.replicate_succ, List.cons_append]
    rw [← ih]
    simp [gf2Mul]

theorem xor_ge_of_ge_of_lt {x y n : Nat} (hx : 2 ^ n ≤ x) (hy : y < 2 ^ n) :
    2 ^ n ≤ x ^^^ y := by
  by_contra hlt
  have h1 : x ^^^ y < 2 ^ n := Nat.lt_of_not_le hlt
  have h2 : (x ^^^ y) ^^^ y < 2 ^ n := Nat.xor_lt_two_pow h1 hy
  rw [Nat.xor_cancel_right] at h2
  omega

theorem horner_generator_ge (q : List Bool) (a : Nat) (ha : 2 ^ 16 ≤ a) :
    2 ^ 16 ≤ q.foldl (fun acc c => 2 * acc ^^^ (if c then GENERATOR else 0)) a := by
  induction q generalizing a with
  | nil => exact ha
  | cons c t ih =>
    have h17 : 2 ^ 17 ≤ 2 * a := by omega
    have hg : (if c then GENERATOR else 0) < 2 ^ 17 := by
      cases c <;> decide
    have hstep := xor_ge_of_ge_of_lt h17 hg
    rw [List.foldl_cons]
    exact ih _ (by omega)

theorem gf2Mul_generator_small (q : List Bool) (h : gf2Mul q GENERATOR < 2 ^ 16) :
    gf2Mul q GENERATOR = 0 := by
  unfold gf2Mul at h ⊢
  induction q with
  | nil => rfl
  | cons c t ih =>
    cases c with
    | false =>
      simp only [List.foldl_cons] at h ⊢
      simpa using ih (by simpa using h)
    | true =>
      exfalso
      rw [List.foldl_cons] at h
      have hge := horner_generator_ge t (2 * 0 ^^^ (if true then GENERATOR else 0))
        (by decide)
      exact absurd h (Nat.not_lt_of_le hge)

theorem isGf2Remainder_unique (m r r2 : Nat) (h : IsGf2Remainder m r)
    (h2 : IsGf2Remainder m r2) : r = r2 := by
  obtain ⟨hr, q, hq⟩ := h
  obtain ⟨hr2, q2, hq2⟩ := h2
  have hlen : (List.replicate q2.length false ++ q).length
      = (List.replicate q.length false ++ q2).length := by
    simp [Nat.add_comm]
  have hx := horner_xor GENERATOR _ _ hlen 0 0
  have hx2 : gf2Mul (List.zipWith xor (List.replicate q2.length false ++ q)
      (List.replicate q.length false ++ q2)) GENERATOR
      = gf2Mul q GENERATOR ^^^ gf2Mul q2 GENERATOR := by
    rw [← gf2Mul_pad q2.length q, ← gf2Mul_pad q.length q2]
    simpa [gf2Mul] using hx
  have hd : gf2Mul q GENERATOR ^^^ gf2Mul q2 GENERATOR = r ^^^ r2 := by
    have e : gf2Mul q GENERATOR = (gf2Mul q2 GENERATOR ^^^ r2) ^^^ r := by
      rw [hq2, ← hq, Nat.xor_cancel_right]
    rw [e]
    simp [Nat.xor_assoc, Nat.xor_comm, xor_left_comm3, Nat.xor_cancel_left]
  have hsmall : gf2Mul (List.zipWith xor (List.replicate q2.length false ++ q)
      (List.replicate q.length false ++ q2)) GENERATOR < 2 ^ 16 := by
    rw [hx2, hd]
    exact Nat.xor_lt_two_pow hr hr2
  have hzero := gf2Mul_generator_small _ hsmall
  rw [hx2, hd] at hzero
  exact Nat.xor_eq_zero.mp hzero
theorem crcBytes_low_high (r : Nat) (h : r < 2 ^ 16) : crcBytes r = [r % 256, r / 256] := by
  unfold crcBytes
  have : r / 256 % 256 = r / 256 := by omega
  rw [this]

theorem atca_calculate_crc_crc (self : ATECCX08A) (length : Nat) (data : List Nat) :
    (self.atca_calculate_crc length data).crc = crcBytes (crcRegister length data) := rfl

theorem crcRegister_congr (length : Nat) (data data2 : List Nat) (h : length ≤ data.length)
    (h2 : length ≤ data2.length) (e : data2.take length = data.take length) :
    crcRegister length data2 = crcRegister length data := by
  rw [crcRegister_eq_fold length data h, crcRegister_eq_fold length data2 h2, e]

/-- C1: for every buffer `data` and every `length` not exceeding its size,
`atca_calculate_crc(length, data)` leaves in the member `crc` the low and high byte of the
CRC-16 of the first `length` bytes (polynomial 0x8005, MSB first, initial value 0, no final
XOR), that is of the one remainder of the message polynomial times x^16 by the generator;
the result is the same for any previous object state and any buffer with the same first
`length` bytes. -/
theorem atca_calculate_crc_is_crc16 (self : ATECCX08A) (length : Nat) (data : List Nat)
    (hlen : length ≤ data.length) :
    ∃ r, IsCrc16 (data.take length) r ∧
      (∀ r2, IsCrc16 (data.take length) r2 → r2 = r) ∧
      (self.atca_calculate_crc length data).crc = [r % 256, r / 256] ∧
      (∀ (other : ATECCX08A) (data2 : List Nat), length ≤ data2.length →
        data2.take length = data.take length →
        (other.atca_calculate_crc length data2).crc
          = (self.atca_calculate_crc length data).crc) := by
  have hcrc := crcRegister_isCrc16 length data hlen
  refine ⟨crcRegister length data, hcrc, ?_, ?_, ?_⟩
  · intro r2 h2
    exact isGf2Remainder_unique _ _ _ h2 hcrc
  · rw [atca_calculate_crc_crc, crcBytes_low_high _ hcrc.1]
  · intro other data2 h2 e
    rw [atca_calculate_crc_crc, atca_calculate_crc_crc, crcRegister_congr length data data2 hlen h2 e]

theorem atca_calculate_crc_is_crc16_witness :
    2 ≤ [4, 17, 51, 67].length ∧
    ∃ r, IsCrc16 ([4, 17, 51, 67].take 2) r ∧
      (∀ r2, IsCrc16 ([4, 17, 51, 67].take 2) r2 → r2 = r) ∧
      (ATECCX08A.fresh.atca_calculate_crc 2 [4, 17, 51, 67]).crc = [r % 256, r / 256] ∧
      (∀ (other : ATECCX08A) (data2 : List Nat), 2 ≤ data2.length →
        data2.take 2 = [4, 17, 51, 67].take 2 →
        (other.atca_calculate_crc 2 data2).crc
          = (ATECCX08A.fresh.atca_calculate_crc 2 [4, 17, 51, 67]).crc) :=
  ⟨by decide, atca_calculate_crc_is_crc16 ATECCX08A.fresh 2 [4, 17, 51, 67] (by decide)⟩

/-! ## Response validation -/

theorem last_two_received (buf : List Nat) (n : Nat) (h2 : 2 ≤ n) (hn : n ≤ buf.length) :
    (buf.take n).drop (n - 2) = [buf.getD (n - 2) 0, buf.getD (n - 1) 0] := by
  have h1 : n - 2 < buf.length := by omega
  have h3 : n - 2 + 1 < buf.length := by omega
  have e1 : n - 1 = n - 2 + 1 := by omega
  have e2 : n - (n - 2) = 2 := by omega
  rw [List.drop_take, List.drop_eq_getElem_cons h1, List.drop_eq_getElem_cons h3, e1, e2,
    List.getD_eq_getElem _ _ h1, List.getD_eq_getElem _ _ h3]
  rfl

theorem checkCount_iff (self : ATECCX08A) :
    self.checkCount = true ↔ self.inputBuffer.getD 0 0 = self.countGlobal := by
  unfold ATECCX08A.checkCount
  by_cases h : self.inputBuffer.getD 0 0 = self.countGlobal <;> simp [h]

theorem pair_verdict (s1 : ATECCX08A) (a b x y : Nat) :
    (if (a != x || b != y) = true then (s1, false) else (s1, true)).2 = true
      ↔ [a, b] = [x, y] := by
  by_cases ha : a = x <;> by_cases hb : b = y <;> simp [ha, hb]

theorem checkCrc_iff (self : ATECCX08A) (h2 : 2 ≤ self.countGlobal)
    (hcg : self.countGlobal ≤ self.inputBuffer.length) :
    self.checkCrc.2 = true ↔
      (self.inputBuffer.take self.countGlobal).drop (self.countGlobal - 2)
        = crcBytes (crcRegister (self.countGlobal - 2) self.inputBuffer) := by
  rw [last_two_received _ _ h2 hcg]
  exact pair_verdict _ _ _ _ _

/-- C2: for every object state, whatever `countGlobal` and the buffer hold: `checkCount`
returns false, and the validation reports a count mismatch, whenever the count byte
`inputBuffer[0]` differs from `countGlobal`; the validation accepts only if both checks
pass, so an accepted response has a matching count byte.  Whenever the response has two
trailing bytes (`countGlobal` at least 2) and lies in the buffer, `checkCrc` returns false,
and the validation does not accept, if the last two received bytes differ from the CRC-16
of all the bytes that precede them (count byte included); an accepted response has a
matching checksum. -/
theorem response_validation_rejects (self : ATECCX08A) :
    (self.inputBuffer.getD 0 0 ≠ self.countGlobal →
      self.checkCount = false ∧
      self.validateResponse = .error .CountMismatchError) ∧
    (∀ accepted, self.validateResponse = .ok accepted →
      self.checkCount = true ∧ self.checkCrc.2 = true ∧
      self.inputBuffer.getD 0 0 = self.countGlobal) ∧
    (2 ≤ self.countGlobal → self.countGlobal ≤ self.inputBuffer.length →
      (∀ r, IsCrc16 (self.inputBuffer.take (self.countGlobal - 2)) r →
        (self.inputBuffer.take self.countGlobal).drop (self.countGlobal - 2) ≠ crcBytes r →
        self.checkCrc.2 = false ∧ ∀ accepted, self.validateResponse ≠ .ok accepted) ∧
      (∀ accepted, self.validateResponse = .ok accepted →
        ∃ r, IsCrc16 (self.inputBuffer.take (self.countGlobal - 2)) r ∧
          (self.inputBuffer.take self.countGlobal).drop (self.countGlobal - 2)
            = crcBytes r)) := by
  have hboth : ∀ accepted, self.validateResponse = .ok accepted →
      self.checkCount = true ∧ self.checkCrc.2 = true := by
    intro accepted hacc
    unfold ATECCX08A.validateResponse at hacc
    cases hc : self.checkCount with
    | false => simp [hc] at hacc
    | true =>
      cases hk : self.checkCrc.2 with
      | false => simp [hc, hk] at hacc
      | true => exact ⟨rfl, rfl⟩
  refine ⟨?_, ?_, ?_⟩
  · intro hne
    have hc : self.checkCount = false := by
      cases hc : self.checkCount with
      | false => rfl
      | true => exact absurd ((checkCount_iff self).mp hc) hne
    refine ⟨hc, ?_⟩
    unfold ATECCX08A.validateResponse
    rw [if_pos hc]
  · intro accepted hacc
    obtain ⟨hc, hk⟩ := hboth accepted hacc
    exact ⟨hc, hk, (checkCount_iff self).mp hc⟩
  · intro h2 hcg
    have hcrc := crcRegister_isCrc16 (self.countGlobal - 2) self.inputBuffer (by omega)
    refine ⟨?_, ?_⟩
    · intro r hr hne
      have hreq : r = crcRegister (self.countGlobal - 2) self.inputBuffer :=
        isGf2Remainder_unique _ _ _ hr hcrc
      have hk : self.checkCrc.2 = false := by
        cases hk : self.checkCrc.2 with
        | false => rfl
        | true =>
          rw [hreq] at hne
          exact absurd ((checkCrc_iff self h2 hcg).mp hk) hne
      refine ⟨hk, ?_⟩
      intro accepted hacc
      have hk2 := (hboth accepted hacc).2
      rw [hk] at hk2
      exact Bool.noConfusion hk2
    · intro accepted hacc
      exact ⟨_, hcrc, (checkCrc_iff self h2 hcg).mp (hboth accepted hacc).2⟩

set_option maxRecDepth 100000 in
theorem response_validation_rejects_witness :
    (2 ≤ ATECCX08A.sampleResponse.countGlobal ∧
      ATECCX08A.sampleResponse.countGlobal ≤ ATECCX08A.sampleResponse.inputBuffer.length ∧
      ATECCX08A.sampleResponse.checkCount = true ∧
      ATECCX08A.sampleResponse.checkCrc.2 = true) ∧
    (∀ r, IsCrc16 (ATECCX08A.sampleResponse.inputBuffer.take
        (ATECCX08A.sampleResponse.countGlobal - 2)) r →
      (ATECCX08A.sampleResponse.inputBuffer.take ATECCX08A.sampleResponse.countGlobal).drop
        (ATECCX08A.sampleResponse.countGlobal - 2) ≠ crcBytes r →
      ATECCX08A.sampleResponse.checkCrc.2 = false ∧
        ∀ accepted, ATECCX08A.sampleResponse.validateResponse ≠ .ok accepted) ∧
    (ATECCX08A.truncatedResponse.inputBuffer.getD 0 0
        ≠ ATECCX08A.truncatedResponse.countGlobal ∧
      ATECCX08A.truncatedResponse.checkCount = false ∧
      ATECCX08A.truncatedResponse.validateResponse = .error .CountMismatchError) :=
  ⟨⟨by decide, by decide, by decide, by decide⟩,
    ((response_validation_rejects ATECCX08A.sampleResponse).2.2 (by decide) (by decide)).1,
    by decide,
    (response_validation_rejects ATECCX08A.truncatedResponse).1 (by decide)⟩

/-! ## Command framing -/

theorem assembleCommand_packet (self : ATECCX08A) (opcode param1 param2a param2b : Nat)
    (data : List Nat) :
    (self.assembleCommand opcode param1 param2a param2b data).2
      = (7 + data.length) % 256 :: opcode :: param1 :: param2a :: param2b ::
          (data ++ crcBytes (crcRegister (5 + data.length)
            ([(7 + data.length) % 256, opcode, param1, param2a, param2b] ++ data))) := by
  unfold ATECCX08A.assembleCommand
  simp only [atca_calculate_crc_crc]
  have e1 : 1 + 1 + 1 + 2 + data.length + 2 = 7 + data.length := by omega
  have e2 : ([(7 + data.length) % 256, opcode, param1, param2a, param2b] ++ data).length
      = 5 + data.length := by
    simp only [List.length_append, List.length_cons, List.length_nil]
  rw [e1, e2]
  rfl

theorem assembleCommand_head (self : ATECCX08A) (opcode param1 param2a param2b : Nat)
    (data : List Nat) :
    (self.assembleCommand opcode param1 param2a param2b data).2.head?
      = some ((7 + data.length) % 256) := by
  rw [assembleCommand_packet]
  rfl

theorem assembleCommand_length (self : ATECCX08A) (opcode param1 param2a param2b : Nat)
    (data : List Nat) :
    (self.assembleCommand opcode param1 param2a param2b data).2.length = 7 + data.length := by
  rw [assembleCommand_packet]
  simp only [List.length_cons, List.length_append, crcBytes, List.length_nil]
  omega

/-- C3: for every opcode, param1, 2-byte param2 and data sequence, the assembled packet has
exactly `1 + 1 + 1 + 2 + len(data) + 2 = 7 + len(data)` bytes from the count byte through
the two checksum bytes.  For every valid parameter set, that is whenever this total fits the
one-byte count field, the packet is `count, opcode, param1, param2 (2 bytes), data,
crc (2 bytes)` with the count byte equal to `7 + len(data)` and the checksum the CRC-16 of
all the bytes that precede it; the data lengths of the documented commands (0, 4 and 32
bytes) are all valid. -/
theorem assembleCommand_count_exact (self : ATECCX08A) (opcode param1 param2a param2b : Nat)
    (data : List Nat) :
    (self.assembleCommand opcode param1 param2a param2b data).2.length
      = 1 + 1 + 1 + 2 + data.length + 2 ∧
    (self.assembleCommand opcode param1 param2a param2b data).2.length = 7 + data.length ∧
    (7 + data.length < 2 ^ 8 →
      (self.assembleCommand opcode param1 param2a param2b data).2.head?
        = some (7 + data.length) ∧
      ∃ r, IsCrc16 ([7 + data.length, opcode, param1, param2a, param2b] ++ data) r ∧
        (self.assembleCommand opcode param1 param2a param2b data).2
          = [7 + data.length, opcode, param1, param2a, param2b] ++ data
            ++ [r % 256, r / 256]) ∧
    (data.length = 0 ∨ data.length = 4 ∨ data.length = 32 →
      7 + data.length < 2 ^ 8 ∧
      (self.assembleCommand opcode param1 param2a param2b data).2.head?
        = some (7 + data.length)) := by
  have hvalid : 7 + data.length < 2 ^ 8 →
      (self.assembleCommand opcode param1 param2a param2b data).2.head?
        = some (7 + data.length) ∧
      ∃ r, IsCrc16 ([7 + data.length, opcode, param1, param2a, param2b] ++ data) r ∧
        (self.assembleCommand opcode param1 param2a param2b data).2
          = [7 + data.length, opcode, param1, param2a, param2b] ++ data
            ++ [r % 256, r / 256] := by
    intro hfit
    have hmod : (7 + data.length) % 256 = 7 + data.length := Nat.mod_eq_of_lt hfit
    have hcrc := crcRegister_isCrc16 (5 + data.length)
      ([7 + data.length, opcode, param1, param2a, param2b] ++ data)
      (by simp only [List.length_append, List.length_cons, List.length_nil]; omega)
    have htake : ([7 + data.length, opcode, param1, param2a, param2b] ++ data).take
        (5 + data.length) = [7 + data.length, opcode, param1, param2a, param2b] ++ data := by
      apply List.take_of_length_le
      simp only [List.length_append, List.length_cons, List.length_nil]
      omega
    rw [htake] at hcrc
    refine ⟨?_, _, hcrc, ?_⟩
    · rw [assembleCommand_head, hmod]
    · rw [assembleCommand_packet, hmod, crcBytes_low_high _ hcrc.1]
      simp
  have hlen := assembleCommand_length self opcode param1 param2a param2b data
  refine ⟨by rw [hlen]; omega, hlen, hvalid, ?_⟩
  intro hdoc
  have hfit : 7 + data.length < 2 ^ 8 := by omega
  exact ⟨hfit, (hvalid hfit).1⟩

theorem assembleCommand_count_exact_witness :
    (7 + [1, 2, 3, 4].length < 2 ^ 8 ∧
      ([1, 2, 3, 4].length = 0 ∨ [1, 2, 3, 4].length = 4 ∨ [1, 2, 3, 4].length = 32)) ∧
    (ATECCX08A.fresh.assembleCommand COMMAND_OPCODE_WRITE ZONE_CONFIG 5 0 [1, 2, 3, 4]).2.length
      = 7 + [1, 2, 3, 4].length ∧
    (ATECCX08A.fresh.assembleCommand COMMAND_OPCODE_WRITE ZONE_CONFIG 5 0 [1, 2, 3, 4]).2.head?
      = some (7 + [1, 2, 3, 4].length) ∧
    (7 + [1, 2, 3, 4].length < 2 ^ 8 ∧
      (ATECCX08A.fresh.assembleCommand COMMAND_OPCODE_WRITE ZONE_CONFIG 5 0
        [1, 2, 3, 4]).2.head? = some (7 + [1, 2, 3, 4].length)) :=
  ⟨⟨by decide, by decide⟩,
    (assembleCommand_count_exact ATECCX08A.fresh COMMAND_OPCODE_WRITE ZONE_CONFIG 5 0
      [1, 2, 3, 4]).2.1,
    ((assembleCommand_count_exact ATECCX08A.fresh COMMAND_OPCODE_WRITE ZONE_CONFIG 5 0
      [1, 2, 3, 4]).2.2.1 (by decide)).1,
    (assembleCommand_count_exact ATECCX08A.fresh COMMAND_OPCODE_WRITE ZONE_CONFIG 5 0
      [1, 2, 3, 4]).2.2.2 (by decide)⟩

/-! ## Receiving a response -/

theorem take_set_same (l : List Nat) (n b : Nat) : (l.set n b).take n = l.take n := by
  rw [List.set_take]
  apply List.set_eq_of_length_le
  rw [List.length_take]
  exact Nat.min_le_left _ _

theorem storeReceivedBytes_ok (bytes : List Nat) (self : ATECCX08A)
    (hfit : self.countGlobal + bytes.length ≤ self.inputBuffer.length)
    (hsize : self.inputBuffer.length < 256) :
    ∃ stored, self.storeReceivedBytes bytes = some stored ∧
      stored.countGlobal = self.countGlobal + bytes.length ∧
      stored.inputBuffer.length = self.inputBuffer.length ∧
      stored.inputBuffer.take stored.countGlobal
        = self.inputBuffer.take self.countGlobal ++ bytes := by
  induction bytes generalizing self with
  | nil => exact ⟨self, rfl, rfl, rfl, by simp⟩
  | cons b rest ih =>
    simp only [List.length_cons] at hfit
    have hlt : self.countGlobal < self.inputBuffer.length := by omega
    have hmod : (self.countGlobal + 1) % 256 = self.countGlobal + 1 :=
      Nat.mod_eq_of_lt (by omega)
    have hstep : self.storeReceivedByte b = some { self with
        inputBuffer := self.inputBuffer.set self.countGlobal b
        countGlobal := self.countGlobal + 1 } := by
      unfold ATECCX08A.storeReceivedByte
      rw [if_pos hlt, hmod]
    obtain ⟨stored, hs, hc, hl, ht⟩ := ih { self with
        inputBuffer := self.inputBuffer.set self.countGlobal b
        countGlobal := self.countGlobal + 1 }
      (by simp only [List.length_set]; omega) (by simp only [List.length_set]; exact hsize)
    dsimp only at hc hl ht
    rw [List.length_set] at hl
    refine ⟨stored, ?_, ?_, ?_, ?_⟩
    · rw [ATECCX08A.storeReceivedBytes, hstep]
      exact hs
    · rw [hc, List.length_cons]
      omega
    · exact hl
    · rw [ht, List.take_succ, take_set_same, List.getElem?_set_self hlt]
      simp

theorem receiveLoop_ok (bus : List (List Nat)) (self : ATECCX08A) (length : Nat)
    (hfit : self.countGlobal + length ≤ self.inputBuffer.length)
    (hsize : self.inputBuffer.length < 256) :
    ∃ received, self.receiveLoop length bus = some received ∧
      received.countGlobal = self.countGlobal + (deliveredBytes length bus).length ∧
      (deliveredBytes length bus).length ≤ length ∧
      received.inputBuffer.length = self.inputBuffer.length ∧
      received.inputBuffer.take received.countGlobal
        = self.inputBuffer.take self.countGlobal ++ deliveredBytes length bus := by
  induction bus generalizing self length with
  | nil => exact ⟨self, rfl, by simp [deliveredBytes], by simp [deliveredBytes], rfl,
      by simp [deliveredBytes]⟩
  | cons transfer rest ih =>
    by_cases h0 : length = 0
    · refine ⟨self, ?_, ?_, ?_, rfl, ?_⟩ <;> simp [ATECCX08A.receiveLoop, deliveredBytes, h0]
    · have hrl : (transfer.take (min length I2C_BUFFER_LENGTH)).length ≤ length := by
        rw [List.length_take]
        omega
      obtain ⟨stored, hs, hc, hl, ht⟩ := storeReceivedBytes_ok
        (transfer.take (min length I2C_BUFFER_LENGTH)) self (by omega) hsize
      obtain ⟨received, hr, hrc, hrd, hrl2, hrt⟩ := ih stored
        (length - (transfer.take (min length I2C_BUFFER_LENGTH)).length)
        (by rw [hc, hl]; omega) (by rw [hl]; exact hsize)
      refine ⟨received, ?_, ?_, ?_, ?_, ?_⟩
      · rw [ATECCX08A.receiveLoop, if_neg h0]
        simp only [hs]
        exact hr
      · rw [hrc, hc, deliveredBytes, if_neg h0]
        simp only [List.length_append]
        omega
      · rw [deliveredBytes, if_neg h0]
        simp only [List.length_append]
        omega
      · rw [hrl2, hl]
      · rw [hrt, ht, deliveredBytes, if_neg h0]
        simp only [List.append_assoc]

/-- C10: for a response with 4 or 32 payload bytes (a read) or the 32 bytes of
`random32Bytes` (the random result), the complete response (count byte,
payload, two checksum bytes) is at most 35 bytes; whatever the transport delivers,
`receiveResponseData` stores every byte at an index inside `inputBuffer[128]` (it never
fails on an out-of-bounds store), and `countGlobal` ends equal to the number of bytes
stored, which is at most 35 and so below both 128 and 256: the counter does not wrap. -/
theorem receiveResponseData_fits (self : ATECCX08A) (payload : Nat) (bus : List (List Nat))
    (hpayload : payload = 4 ∨ payload = 32 ∨ payload = RANDOM_BUFFER_SIZE)
    (hbuf : self.inputBuffer.length = INPUT_BUFFER_SIZE) :
    responseLength payload ≤ 35 ∧
    ∃ received, self.receiveResponseData (responseLength payload) bus = some received ∧
      received.countGlobal = (deliveredBytes (responseLength payload) bus).length ∧
      received.countGlobal ≤ responseLength payload ∧
      received.countGlobal < INPUT_BUFFER_SIZE ∧ received.countGlobal < 2 ^ 8 ∧
      received.inputBuffer.length = INPUT_BUFFER_SIZE ∧
      received.inputBuffer.take received.countGlobal
        = deliveredBytes (responseLength payload) bus := by
  have h35 : responseLength payload ≤ 35 := by
    unfold responseLength
    have hr : RANDOM_BUFFER_SIZE = 32 := rfl
    omega
  have h128 : INPUT_BUFFER_SIZE = 128 := rfl
  obtain ⟨received, hr, hc, hd, hl, ht⟩ := receiveLoop_ok bus
    { self with countGlobal := 0 } (responseLength payload)
    (by simp only [hbuf, h128]; omega) (by simp only [hbuf, h128]; omega)
  simp only [Nat.zero_add, List.take_zero, List.nil_append] at hc ht
  refine ⟨h35, received, hr, hc, ?_, ?_, ?_, ?_, ht⟩
  · omega
  · rw [h128]; omega
  · omega
  · rw [hl]; exact hbuf

set_option maxRecDepth 100000 in
theorem receiveResponseData_fits_witness :
    (32 = 4 ∨ 32 = 32 ∨ 32 = RANDOM_BUFFER_SIZE) ∧
    ATECCX08A.fresh.inputBuffer.length = INPUT_BUFFER_SIZE ∧
    responseLength 32 ≤ 35 ∧
    ∃ received, ATECCX08A.fresh.receiveResponseData (responseLength 32)
        [List.replicate 32 7, [1, 2, 3]] = some received ∧
      received.countGlobal
        = (deliveredBytes (responseLength 32) [List.replicate 32 7, [1, 2, 3]]).length ∧
      received.countGlobal ≤ responseLength 32 ∧
      received.countGlobal < INPUT_BUFFER_SIZE ∧ received.countGlobal < 2 ^ 8 ∧
      received.inputBuffer.length = INPUT_BUFFER_SIZE ∧
      received.inputBuffer.take received.countGlobal
        = deliveredBytes (responseLength 32) [List.replicate 32 7, [1, 2, 3]] :=
  ⟨by decide, by decide,
    receiveResponseData_fits ATECCX08A.fresh 32 [List.replicate 32 7, [1, 2, 3]]
      (by decide) (by decide)⟩

end SparkFun
